import Mathlib

/-!
Shallow embedding of `nats_restriction_zones.py`, a one-shot AIXM-XML to
YAML converter, together with theorems settling the frozen claims about it.

Modelling conventions:
* Python floats are modelled as exact rationals (`ℚ`); `int()` truncation is
  `pyInt`, Python's banker-rounding `round()` is `pyRound`.
* Python strings are Lean `String`s; `str.lstrip(chars)` is `lstripChars`
  (it removes a leading run of characters drawn from the set, which is what
  Python does), `in`-substring tests are `strContains`, `str.replace` is
  `pyReplace` (all occurrences), `%0Nd` is `pyFmtD`.
* The `%g` / `%.2g` C float formatting applied to circle radii is abstracted
  as a parameter `fmt : Gfmt → ℚ → String` of the pipeline, with `Gfmt`
  recording which of the two formats (6 vs 2 significant figures) the code
  selects; no theorem depends on the digits such a formatter produces.
* Exceptions raised by the script (including Python `AttributeError` from
  calling `.find` on `None`) are modelled by `Except String`.
* The XML tree is modelled by the record structures below holding exactly
  the fields the script reads; `Option` marks sub-elements whose absence the
  script either skips over or crashes on.
-/

namespace NatsRestrictionZones

/-- Python `int()` applied to a rational: truncation toward zero. -/
def pyInt (x : ℚ) : ℤ := if 0 ≤ x then ⌊x⌋ else -⌊-x⌋

/-- Python 3 `round()` to an integer: round half to even. -/
def pyRound (x : ℚ) : ℤ :=
  if x - ⌊x⌋ < 1/2 then ⌊x⌋
  else if 1/2 < x - ⌊x⌋ then ⌊x⌋ + 1
  else if ⌊x⌋ % 2 = 0 then ⌊x⌋ else ⌊x⌋ + 1

/-- Left-pad a string with zeros to the given width (no truncation). -/
def zeroPad (w : Nat) (s : String) : String :=
  String.mk (List.replicate (w - s.length) '0') ++ s

/-- Python `"%0{w}d" % n`: zero-padded decimal of an integer, the sign
counting toward the field width. -/
def pyFmtD (w : Nat) (n : ℤ) : String :=
  if n < 0 then "-" ++ zeroPad (w - 1) (toString n.natAbs)
  else zeroPad w (toString n.natAbs)

/-- `degrees` of `getDMS`: `int(abs(angle))`. -/
def dmsD (angle : ℚ) : ℤ := pyInt |angle|

/-- `minutes` of `getDMS`: `int((angle-degrees)*60)` (on the absolute angle). -/
def dmsM (angle : ℚ) : ℤ := pyInt ((|angle| - dmsD angle) * 60)

/-- `seconds` of `getDMS`: `round((angle-degrees-minutes/60.0)*3600)`. -/
def dmsS (angle : ℚ) : ℤ :=
  pyRound ((|angle| - dmsD angle - (dmsM angle : ℚ) / 60) * 3600)

/-- `getDMS(angle, degree_digits)` from the script: format an absolute angle
as zero-padded degrees, minutes and rounded seconds, `DD..DMMSS`. -/
def getDMS (angle : ℚ) (degree_digits : Nat) : String :=
  pyFmtD degree_digits (dmsD angle) ++ pyFmtD 2 (dmsM angle) ++ pyFmtD 2 (dmsS angle)

/-- `handlePos` from the script, taking the already-parsed latitude and
longitude (the script splits the `gml:pos` text at a space and `float`s the
two parts before doing exactly this). -/
def handlePos (lat lon : ℚ) : String :=
  getDMS lat 2 ++ (if lat < 0 then "S" else "N") ++ " "
    ++ getDMS lon 3 ++ (if lon < 0 then "W" else "E")

/-- Body of the per-point loop shared (textually) by `handleGeodesicString`
and `handleLineStringSegment`: one indented position line per point. -/
def pointsBlock : List (ℚ × ℚ) → String
  | [] => ""
  | p :: rest => "      - " ++ handlePos p.1 p.2 ++ "\n" ++ pointsBlock rest

/-- `handleGeodesicString` from the script: header line `- line:` followed by
one position line per point (the script reads each point from
`aixm:Point/gml:pos`; the parsed coordinates are taken here). -/
def handleGeodesicString (points : List (ℚ × ℚ)) : String :=
  points.foldl (fun s p => s ++ ("      - " ++ handlePos p.1 p.2 ++ "\n"))
    "    - line:\n"

/-- `handleLineStringSegment` from the script: header line
`- line string segment:` followed by one position line per point. -/
def handleLineStringSegment (points : List (ℚ × ℚ)) : String :=
  points.foldl (fun s p => s ++ ("      - " ++ handlePos p.1 p.2 ++ "\n"))
    "    - line string segment:\n"

/-- The `%g`-family formats the script applies to a circle radius: plain
`"%g"` (6 significant figures) or `"%.2g"` (2 significant figures).  The
digit-rendering itself is a property of C float formatting and is kept
abstract: the pipeline below is parameterised by a realisation
`Gfmt → ℚ → String`. -/
inductive Gfmt
  | g6
  | g2
deriving DecidableEq

/-- The radius computation of `handleCircleByCenterPoint`: which numeric
value is rendered, with which format, and whether the unknown-unit warning
`? unit {radunit}` is printed.  Mirrors the `uom` dispatch of the script:
`[nmi_i]` copies the value (`%g`), `M` divides by `1852.0` (`%.2g`),
`[ft_i]` divides by `6076.12` (`%.2g`), anything else copies the value
(`%g`) and warns. -/
def circleRadval (radval : ℚ) (radunit : String) : ℚ × Gfmt × Bool :=
  if radunit = "[nmi_i]" then (radval, Gfmt.g6, false)
  else if radunit = "M" then (radval / 1852, Gfmt.g2, false)
  else if radunit = "[ft_i]" then (radval / 6076.12, Gfmt.g2, false)
  else (radval, Gfmt.g6, true)

/-- One `gml` curve-segment element: its (qualified) tag together with the
data the four handlers read from it.  `radiusText` is the verbatim text the
arc handler copies; `radiusVal`/`radiusUom` are the parsed value and `uom`
attribute the circle handler reads. -/
structure Segment where
  tag : String
  points : List (ℚ × ℚ)
  center : ℚ × ℚ
  radiusText : String
  radiusVal : ℚ
  radiusUom : String

/-- `handleArcByCenterPoint` from the script: fixed clockwise direction, the
radius text copied verbatim with ` nm` appended, and the centre position. -/
def handleArcByCenterPoint (seg : Segment) : String :=
  "    - arc:\n        dir: cw\n"
    ++ "        radius: " ++ seg.radiusText ++ " nm\n"
    ++ "        centre: " ++ handlePos seg.center.1 seg.center.2 ++ "\n"

/-- `handleCircleByCenterPoint` from the script, parameterised by the float
formatter; the unknown-unit warning goes to stdout and does not affect the
returned string. -/
def handleCircleByCenterPoint (fmt : Gfmt → ℚ → String) (seg : Segment) : String :=
  let v := circleRadval seg.radiusVal seg.radiusUom
  "    - circle:\n"
    ++ "        radius: " ++ fmt v.2.1 v.1 ++ " nm\n"
    ++ "        centre: " ++ handlePos seg.center.1 seg.center.2 ++ "\n"

/-- Substring test on `List Char` (Python `pat in s`). -/
def listContainsSub : List Char → List Char → Bool
  | [], pat => pat.isEmpty
  | c :: rest, pat => pat.isPrefixOf (c :: rest) || listContainsSub rest pat

/-- Python's substring test `pat in s`. -/
def strContains (s pat : String) : Bool := listContainsSub s.data pat.data

/-- Python `s.startswith(pat)`. -/
def strStartsWith (s pat : String) : Bool := pat.data.isPrefixOf s.data

/-- A curve-segment tag the dispatch loop recognises: one of the four
handled substrings occurs in it. -/
def recognizedTag (t : String) : Bool :=
  strContains t "GeodesicString" || strContains t "ArcByCenterPoint"
    || strContains t "LineStringSegment" || strContains t "CircleByCenterPoint"

/-- The segment-dispatch chain of the main loop, in source order:
`GeodesicString`, `ArcByCenterPoint`, `LineStringSegment`,
`CircleByCenterPoint` by substring match, otherwise the fatal
`Unhandled tag` exception. -/
def dispatchSegment (fmt : Gfmt → ℚ → String) (seg : Segment) : Except String String :=
  if strContains seg.tag "GeodesicString" then .ok (handleGeodesicString seg.points)
  else if strContains seg.tag "ArcByCenterPoint" then .ok (handleArcByCenterPoint seg)
  else if strContains seg.tag "LineStringSegment" then .ok (handleLineStringSegment seg.points)
  else if strContains seg.tag "CircleByCenterPoint" then .ok (handleCircleByCenterPoint fmt seg)
  else .error ("Unhandled tag: " ++ seg.tag)

/-- The inner `for child in segments` loop: dispatch each segment in order,
accumulating the rendered text; the first unhandled tag aborts. -/
def processSegs (fmt : Gfmt → ℚ → String) : List Segment → Except String String
  | [] => .ok ""
  | seg :: rest =>
    match dispatchSegment fmt seg with
    | .error e => .error e
    | .ok s1 =>
      match processSegs fmt rest with
      | .error e => .error e
      | .ok s2 => .ok (s1 ++ s2)

/-- The `for curvemember in ring` loop: a ring member without a `gml:Curve`
child is silently skipped (`if curve is None: continue`); present curves
contribute their segments in order. -/
def processRing (fmt : Gfmt → ℚ → String) : List (Option (List Segment)) → Except String String
  | [] => .ok ""
  | none :: rest => processRing fmt rest
  | some segs :: rest =>
    match processSegs fmt segs with
    | .error e => .error e
    | .ok s1 =>
      match processRing fmt rest with
      | .error e => .error e
      | .ok s2 => .ok (s1 ++ s2)

/-- The lower-limit if-chain of the script (value text, `uom` attribute,
reference code), including its fatal fall-through. -/
def renderLower (v uom ref : String) : Except String String :=
  if (ref = "SFC" ∨ ref = "MSL" ∨ ref = "STD") ∧ v = "0" then .ok "SFC"
  else if uom = "FT" then .ok (v ++ " ft")
  else if uom = "FL" then .ok ("FL" ++ v)
  else .error "Unexpected combination for lower limit"

/-- The upper-limit if-chain of the script.  It has no surface case and
ignores the reference code; its fall-through message says "lower limit"
verbatim in the source. -/
def renderUpper (v uom : String) : Except String String :=
  if uom = "FT" then .ok (v ++ " ft")
  else if uom = "FL" then .ok ("FL" ++ v)
  else .error "Unexpected combination for lower limit"

/-- Python `s.lstrip(chars)`: remove the longest leading run of characters
drawn from the character set `chars` (not the longest matching prefix
string). -/
def lstripChars (chars : List Char) : List Char → List Char
  | [] => []
  | c :: rest => if c ∈ chars then lstripChars chars rest else c :: rest

/-- The designator normalisation `as_des.lstrip("EG ")` of the script:
strips leading `E`, `G` and space characters. -/
def desLstrip (s : String) : String := String.mk (lstripChars "EG ".data s.data)

/-- The fields of one `aixm:AirspaceTimeSlice` the script reads.
`activationNote` is the fully-resolved activation note text when the whole
`activation … note` chain resolves, `none` otherwise (the script emits the
`rules` block only when the text is exactly `Activated by NOTAM.`).
`ring` lists the `gml:Ring` members, `none` standing for a member without a
`gml:Curve` child. -/
structure TimeSlice where
  asType : String
  designator : String
  asName : String
  activationNote : Option String
  upperLimit : String
  upperUom : String
  upperRef : String
  lowerLimit : String
  lowerUom : String
  lowerRef : String
  ring : List (Option (List Segment))

/-- One `message:hasMember` element.  The outer `Option` is the
`aixm:Airspace` child (absent ⇒ the script does `continue`); the inner
`Option` is the `aixm:timeSlice`/`aixm:AirspaceTimeSlice` chain (absent ⇒
the script calls `.find` on `None` and dies with `AttributeError`). -/
structure Member where
  airspace : Option (Option TimeSlice)

/-- The body of the main loop for one time-slice that was reached: strip the
designator, drop `RU` records, then render header, optional rules block,
vertical limits, and boundary.  `.ok none` means the record was dropped. -/
def processTimeSlice (fmt : Gfmt → ℚ → String) (ts : TimeSlice) : Except String (Option String) :=
  let des := desLstrip ts.designator
  if strStartsWith des "RU" then .ok none
  else
    let s1 := "- name: " ++ des ++ " " ++ ts.asName ++ "\n  type: " ++ ts.asType ++ "\n"
    let s2 := s1 ++
      (match ts.activationNote with
       | some n => if n = "Activated by NOTAM." then "  rules:\n  - NOTAM\n" else ""
       | none => "")
    match renderLower ts.lowerLimit ts.lowerUom ts.lowerRef with
    | .error e => .error e
    | .ok lower =>
      match renderUpper ts.upperLimit ts.upperUom with
      | .error e => .error e
      | .ok upper =>
        match processRing fmt ts.ring with
        | .error e => .error e
        | .ok body =>
          .ok (some (s2 ++ "  geometry:\n  - upper: " ++ upper
            ++ "\n    lower: " ++ lower ++ "\n    boundary:\n" ++ body))

/-- One iteration of `for child in root.findall("message:hasMember")`:
skip when the `aixm:Airspace` child is absent, crash when it is present but
the time-slice chain is broken, otherwise process the time-slice. -/
def processMember (fmt : Gfmt → ℚ → String) (m : Member) : Except String (Option String) :=
  match m.airspace with
  | none => .ok none
  | some none => .error "AttributeError: NoneType object has no attribute find"
  | some (some ts) => processTimeSlice fmt ts

/-- The whole main loop: the list of rendered record blocks, or the first
fatal error. -/
def processMembers (fmt : Gfmt → ℚ → String) : List Member → Except String (List String)
  | [] => .ok []
  | m :: rest =>
    match processMember fmt m with
    | .error e => .error e
    | .ok none => processMembers fmt rest
    | .ok (some s) =>
      match processMembers fmt rest with
      | .error e => .error e
      | .ok xs => .ok (s :: xs)

/-- Fuelled worker for `pyReplace`; the fuel is the length of the subject
string, which the recursion never exhausts. -/
def pyReplaceFuel : Nat → List Char → List Char → List Char → List Char
  | _, s, [], _ => s
  | _, [], _ :: _, _ => []
  | 0, s, _ :: _, _ => s
  | fuel + 1, c :: rest, p :: ps, rep =>
    if (p :: ps).isPrefixOf (c :: rest) then
      rep ++ pyReplaceFuel fuel ((c :: rest).drop (p :: ps).length) (p :: ps) rep
    else c :: pyReplaceFuel fuel rest (p :: ps) rep

/-- Python `s.replace(pat, rep)` for a non-empty pattern: replace every
non-overlapping occurrence, scanning left to right. -/
def pyReplace (s pat rep : List Char) : List Char := pyReplaceFuel s.length s pat rep

/-- The output-file derivation `filename.replace(".xml", ".yaml")`. -/
def outputFilename (filename : String) : String :=
  String.mk (pyReplace filename.data ".xml".data ".yaml".data)

/-- Lexicographic (code-point) order on strings, as Python's `list.sort`
compares them. -/
def lexLe : List Char → List Char → Bool
  | [], _ => true
  | _ :: _, [] => false
  | a :: as_, b :: bs => if a < b then true else if b < a then false else lexLe as_ bs

/-- Insert into a sorted list of strings. -/
def insertStr (s : String) : List String → List String
  | [] => [s]
  | t :: rest => if lexLe s.data t.data then s :: t :: rest else t :: insertStr s rest

/-- `xml_list.sort()`: ascending lexicographic sort. -/
def sortStrs : List String → List String
  | [] => []
  | s :: rest => insertStr s (sortStrs rest)

/-- The three preamble writes of the script. -/
def preambleFor (filename : String) : String :=
  "#----------------------------------------------------------------------\n"
    ++ "# ENR 5.1 Prohibited, restricted and danger areas\n"
    ++ "# Autogenerated from " ++ filename ++ "\n\n"

/-- The whole run after XML parsing: process every member, sort the blocks,
and produce the pair (output-file path, output-file content).  The output
file is opened only on the `.ok` path — every fatal exception happens before
`open(...)` in the script. -/
def mainRun (fmt : Gfmt → ℚ → String) (doc : List Member) (filename : String) :
    Except String (String × String) :=
  match processMembers fmt doc with
  | .error e => .error e
  | .ok xs =>
    .ok (outputFilename filename,
      preambleFor filename ++ String.join ((sortStrs xs).map (fun a => a ++ "\n")))

/-- A concrete realisation of the abstract float formatter, used only to
instantiate `fmt` in closed theorems whose conclusions never inspect
formatted radii. -/
def stdFmt : Gfmt → ℚ → String := fun _ q => toString q

/-! ## Helper lemmas -/

theorem foldl_pointsBlock :
    ∀ (pts : List (ℚ × ℚ)) (init : String),
      pts.foldl (fun s p => s ++ ("      - " ++ handlePos p.1 p.2 ++ "\n")) init
        = init ++ pointsBlock pts := by
  intro pts
  induction pts with
  | nil => intro init; simp [pointsBlock, String.append_empty]
  | cons p rest ih =>
    intro init
    simp only [List.foldl_cons, pointsBlock]
    rw [ih, String.append_assoc]

/-! ## C3: GeodesicString vs LineStringSegment rendering -/

/-- C3 (counterexample): the two renderings are not character-for-character
identical — already on the empty point list the headers differ. -/
theorem c3_counterexample :
    handleGeodesicString [] ≠ handleLineStringSegment [] := by decide

/-- C3 (amended): for every sequence of points the two renderings agree on
all per-point lines, differing exactly in the header line — `- line:` for
GeodesicString against `- line string segment:` for LineStringSegment. -/
theorem c3_amended :
    ∀ pts : List (ℚ × ℚ),
      handleGeodesicString pts = "    - line:\n" ++ pointsBlock pts
        ∧ handleLineStringSegment pts
            = "    - line string segment:\n" ++ pointsBlock pts :=
  fun pts => ⟨foldl_pointsBlock pts _, foldl_pointsBlock pts _⟩

/-! ## C4: lower-limit rendering -/

/-- C4 (confirmed): the lower limit is rendered by the first matching case
in order — `SFC` when the reference is SFC/MSL/STD and the value text is
`"0"`, else `<value> ft` for unit FT, else `FL<value>` for unit FL, else a
fatal error; there is no fourth silent case. -/
theorem c4_lower_limit :
    ∀ v uom ref : String,
      ((ref = "SFC" ∨ ref = "MSL" ∨ ref = "STD") ∧ v = "0" →
        renderLower v uom ref = .ok "SFC")
      ∧ (¬((ref = "SFC" ∨ ref = "MSL" ∨ ref = "STD") ∧ v = "0") → uom = "FT" →
        renderLower v uom ref = .ok (v ++ " ft"))
      ∧ (¬((ref = "SFC" ∨ ref = "MSL" ∨ ref = "STD") ∧ v = "0") → uom ≠ "FT" →
          uom = "FL" → renderLower v uom ref = .ok ("FL" ++ v))
      ∧ (¬((ref = "SFC" ∨ ref = "MSL" ∨ ref = "STD") ∧ v = "0") → uom ≠ "FT" →
          uom ≠ "FL" →
          renderLower v uom ref = .error "Unexpected combination for lower limit") := by
  intro v uom ref
  refine ⟨?_, ?_, ?_, ?_⟩
  · intro h; simp only [renderLower]; rw [if_pos h]
  · intro h hft; simp only [renderLower]; rw [if_neg h, if_pos hft]
  · intro h hft hfl; simp only [renderLower]; rw [if_neg h, if_neg hft, if_pos hfl]
  · intro h hft hfl; simp only [renderLower]; rw [if_neg h, if_neg hft, if_neg hfl]

/-- Witness for C4 at concrete inputs, one per case. -/
theorem c4_lower_limit_witness :
    renderLower "0" "XX" "MSL" = .ok "SFC"
      ∧ renderLower "500" "FT" "MSL" = .ok "500 ft"
      ∧ renderLower "65" "FL" "STD" = .ok "FL65"
      ∧ renderLower "10" "KM" "AGL" = .error "Unexpected combination for lower limit" := by
  refine ⟨?_, ?_, ?_, ?_⟩
  · exact (c4_lower_limit "0" "XX" "MSL").1 (by decide)
  · rw [(c4_lower_limit "500" "FT" "MSL").2.1 (by decide) rfl]
    exact congrArg Except.ok (by decide)
  · rw [(c4_lower_limit "65" "FL" "STD").2.2.1 (by decide) (by decide) rfl]
    exact congrArg Except.ok (by decide)
  · exact (c4_lower_limit "10" "KM" "AGL").2.2.2 (by decide) (by decide) (by decide)

/-! ## C5: upper-limit rendering -/

/-- C5 (confirmed): the upper limit renders `<value> ft` for unit FT,
`FL<value>` for unit FL, fails fatally otherwise, and no successful upper
limit is ever the string `SFC` — the surface case does not exist for the
upper bound (the reference code is not even consulted). -/
theorem c5_upper_limit :
    ∀ v uom : String,
      (uom = "FT" → renderUpper v uom = .ok (v ++ " ft"))
      ∧ (uom ≠ "FT" → uom = "FL" → renderUpper v uom = .ok ("FL" ++ v))
      ∧ (uom ≠ "FT" → uom ≠ "FL" →
          renderUpper v uom = .error "Unexpected combination for lower limit")
      ∧ (∀ s, renderUpper v uom = .ok s → s ≠ "SFC") := by
  intro v uom
  refine ⟨?_, ?_, ?_, ?_⟩
  · intro hft; simp only [renderUpper]; rw [if_pos hft]
  · intro hft hfl; simp only [renderUpper]; rw [if_neg hft, if_pos hfl]
  · intro hft hfl; simp only [renderUpper]; rw [if_neg hft, if_neg hfl]
  · intro s h hs
    subst hs
    simp only [renderUpper] at h
    by_cases hft : uom = "FT"
    · rw [if_pos hft] at h
      have h' : v ++ " ft" = "SFC" := by injection h
      have hlen := congrArg String.length h'
      rw [String.length_append] at hlen
      have hft3 : (" ft" : String).length = 3 := rfl
      have hsfc3 : ("SFC" : String).length = 3 := rfl
      rw [hft3, hsfc3] at hlen
      have hv0 : v.length = 0 := by omega
      obtain ⟨vd⟩ := v
      rw [String.length_mk, List.length_eq_zero] at hv0
      subst hv0
      exact absurd h' (by decide)
    · rw [if_neg hft] at h
      by_cases hfl : uom = "FL"
      · rw [if_pos hfl] at h
        have h' : "FL" ++ v = "SFC" := by injection h
        have hd : 'F' :: 'L' :: v.data = ['S', 'F', 'C'] := by
          have := congrArg String.data h'
          rw [String.data_append] at this
          exact this
        injection hd with h1 _
        exact absurd h1 (by decide)
      · rw [if_neg hfl] at h
        exact absurd h (by simp)

/-- Witness for C5 at concrete inputs, including the (value `"0"`,
reference `"SFC"`) upper limit that still renders `0 ft`, never `SFC`. -/
theorem c5_upper_limit_witness :
    renderUpper "1000" "FT" = .ok "1000 ft"
      ∧ renderUpper "50" "FL" = .ok "FL50"
      ∧ renderUpper "0" "M" = .error "Unexpected combination for lower limit"
      ∧ ("0 ft" : String) ≠ "SFC" := by
  refine ⟨?_, ?_, ?_, ?_⟩
  · rw [(c5_upper_limit "1000" "FT").1 rfl]
    exact congrArg Except.ok (by decide)
  · rw [(c5_upper_limit "50" "FL").2.1 (by decide) rfl]
    exact congrArg Except.ok (by decide)
  · exact (c5_upper_limit "0" "M").2.2.1 (by decide) (by decide)
  · exact (c5_upper_limit "0" "FT").2.2.2 "0 ft" rfl

/-! ## C7: circle radius unit conversion -/

/-- C7 (confirmed): the circle radius dispatches on the unit code —
nautical miles copy the value with the 6-significant-figure format, metres
divide by 1852.0 with the 2-significant-figure format, feet divide by
6076.12 with the 2-significant-figure format, and any other unit copies the
raw value (6-significant-figure format) with the warning flag set while the
segment still renders successfully (non-fatal). -/
theorem c7_circle_radius :
    ∀ (v : ℚ) (u : String) (fmt : Gfmt → ℚ → String) (pts : List (ℚ × ℚ))
      (ctr : ℚ × ℚ) (rt : String) (rv : ℚ),
      circleRadval v "[nmi_i]" = (v, Gfmt.g6, false)
      ∧ circleRadval v "M" = (v / 1852, Gfmt.g2, false)
      ∧ circleRadval v "[ft_i]" = (v / 6076.12, Gfmt.g2, false)
      ∧ (u ≠ "[nmi_i]" → u ≠ "M" → u ≠ "[ft_i]" →
          circleRadval v u = (v, Gfmt.g6, true))
      ∧ dispatchSegment fmt ⟨"CircleByCenterPoint", pts, ctr, rt, rv, u⟩
          = .ok (handleCircleByCenterPoint fmt ⟨"CircleByCenterPoint", pts, ctr, rt, rv, u⟩) := by
  intro v u fmt pts ctr rt rv
  refine ⟨?_, ?_, ?_, ?_, ?_⟩
  · simp [circleRadval]
  · simp [circleRadval]
  · simp [circleRadval]
  · intro h1 h2 h3
    simp [circleRadval, h1, h2, h3]
  · simp only [dispatchSegment]
    rw [if_neg (by decide), if_neg (by decide), if_neg (by decide), if_pos (by decide)]

/-- Witness for C7: the unknown-unit case at a concrete unit code. -/
theorem c7_circle_radius_witness :
    circleRadval 5 "KM" = (5, Gfmt.g6, true) :=
  (c7_circle_radius 5 "KM" stdFmt [] (0, 0) "" 0).2.2.2.1
    (by decide) (by decide) (by decide)

/-! ## C2: designator normalisation -/

/-- Time-slice with the runway designator of the specification example. -/
def c2RuTS : TimeSlice :=
  ⟨"D", "EG RUABC", "NAME", none, "0", "FT", "SFC", "0", "FT", "SFC", []⟩

/-- C2 (code bug): `lstrip("EG ")` strips a leading run of the characters
`E`, `G`, space — not the fixed prefix `"EG "`.  On the designator
`"EG EAST"` the code produces `"AST"` where prefix-stripping (the stated
behaviour, and the intent of the source comment `Remove "EG " from
designator`) would produce `"EAST"`.  The claim's own examples do hold:
`"EG TRA 1"` becomes `"TRA 1"` and `"EG RUABC"` drops the record. -/
theorem c2_code_divergence :
    desLstrip "EG EAST" = "AST"
      ∧ ("AST" : String) ≠ "EAST"
      ∧ desLstrip "EG TRA 1" = "TRA 1"
      ∧ processTimeSlice stdFmt c2RuTS = .ok none := by
  refine ⟨by decide, by decide, by decide, rfl⟩

/-! ## C8: output filename derivation -/

/-- C8 (counterexample): the script replaces every occurrence of `".xml"`,
not only the suffix — `"a.xml.xml"` becomes `"a.yaml.yaml"`, not the
suffix-only `"a.xml.yaml"`. -/
theorem c8_counterexample :
    outputFilename "a.xml.xml" = "a.yaml.yaml"
      ∧ ("a.yaml.yaml" : String) ≠ "a.xml.yaml" := by
  refine ⟨by decide, by decide⟩

theorem pyReplaceFuel_xml :
    ∀ (l : List Char), (∀ c ∈ l, c ≠ '.') → ∀ fuel, (l ++ ".xml".data).length ≤ fuel →
      pyReplaceFuel fuel (l ++ ".xml".data) ".xml".data ".yaml".data
        = l ++ ".yaml".data := by
  intro l
  induction l with
  | nil =>
    intro _ fuel hfuel
    match fuel with
    | 0 => simp at hfuel
    | f + 1 =>
      have hstep : pyReplaceFuel (f + 1) ([] ++ ".xml".data) ".xml".data ".yaml".data
          = ".yaml".data ++ pyReplaceFuel f [] ".xml".data ".yaml".data := rfl
      have hnil : pyReplaceFuel f [] ".xml".data ".yaml".data = [] := by
        cases f <;> rfl
      rw [hstep, hnil, List.append_nil, List.nil_append]
  | cons c rest ih =>
    intro hdot fuel hfuel
    have hc : c ≠ '.' := hdot c (List.mem_cons_self c rest)
    match fuel with
    | 0 => simp at hfuel
    | f + 1 =>
      have hbeq : ('.' == c) = false := by
        cases h : ('.' == c)
        · rfl
        · exact absurd (eq_of_beq h).symm hc
      have hpre : (".xml".data.isPrefixOf (c :: (rest ++ ".xml".data))) = false := by
        show (('.' == c) && ("xml".data.isPrefixOf (rest ++ ".xml".data))) = false
        rw [hbeq, Bool.false_and]
      have hstep : pyReplaceFuel (f + 1) ((c :: rest) ++ ".xml".data) ".xml".data ".yaml".data
          = if ".xml".data.isPrefixOf (c :: (rest ++ ".xml".data)) then
              ".yaml".data ++ pyReplaceFuel f ((c :: (rest ++ ".xml".data)).drop ".xml".data.length)
                ".xml".data ".yaml".data
            else c :: pyReplaceFuel f (rest ++ ".xml".data) ".xml".data ".yaml".data := rfl
      rw [hstep, hpre, if_neg Bool.false_ne_true]
      rw [ih (fun x hx => hdot x (List.mem_cons_of_mem c hx)) f
        (by simpa using Nat.le_of_succ_le_succ (by simpa using hfuel))]
      rfl

/-- C8 (amended): the derivation replaces every occurrence of the substring
`".xml"` with `".yaml"`; when `".xml"` occurs only as the final suffix (in
particular for a dot-free base name) this coincides with replacing the
suffix, and the file stays in the same directory. -/
theorem c8_amended :
    ∀ base : String, (∀ c ∈ base.data, c ≠ '.') →
      outputFilename (base ++ ".xml") = base ++ ".yaml" := by
  intro base hdot
  apply String.ext
  show (outputFilename (base ++ ".xml")).data = (base ++ ".yaml").data
  rw [String.data_append]
  simp only [outputFilename, pyReplace, String.data_append]
  exact pyReplaceFuel_xml base.data hdot _ le_rfl

/-- Witness for C8 on a dot-free base name. -/
theorem c8_amended_witness :
    outputFilename ("data" ++ ".xml") = "data" ++ ".yaml" :=
  c8_amended "data" (by decide)

/-! ## C6: broken drill-down path -/

/-- C6 (counterexample): a membership element whose `aixm:Airspace` child is
present but whose time-slice chain is absent is not silently skipped — the
run dies with an `AttributeError`. -/
theorem c6_counterexample :
    mainRun stdFmt [⟨some none⟩] "a.xml"
      = .error "AttributeError: NoneType object has no attribute find" := rfl

/-- C6 (amended): a membership element without an `aixm:Airspace` child is
silently skipped and processing continues with the remaining elements; but
when the Airspace child is present and the time-slice sub-element is absent,
the run raises an error instead of skipping. -/
theorem c6_amended :
    ∀ (fmt : Gfmt → ℚ → String) (m : Member) (rest : List Member),
      (m.airspace = none →
        processMember fmt m = .ok none
          ∧ processMembers fmt (m :: rest) = processMembers fmt rest)
      ∧ (m.airspace = some none →
        ∃ e, processMembers fmt (m :: rest) = .error e) := by
  intro fmt m rest
  obtain ⟨a⟩ := m
  constructor
  · intro h
    simp only [Member.airspace] at h
    subst h
    exact ⟨rfl, rfl⟩
  · intro h
    simp only [Member.airspace] at h
    subst h
    exact ⟨_, rfl⟩

/-- Witness for C6: both branches at concrete members. -/
theorem c6_amended_witness :
    (processMember stdFmt ⟨none⟩ = .ok none
        ∧ processMembers stdFmt [⟨none⟩] = processMembers stdFmt [])
      ∧ ∃ e, processMembers stdFmt [⟨some none⟩] = .error e :=
  ⟨(c6_amended stdFmt ⟨none⟩ []).1 rfl, (c6_amended stdFmt ⟨some none⟩ []).2 rfl⟩

/-! ## DMS arithmetic lemmas -/

theorem pyInt_of_nonneg {x : ℚ} (h : 0 ≤ x) : pyInt x = ⌊x⌋ := if_pos h

theorem pyRound_low {x : ℚ} {n : ℤ} (hf : ⌊x⌋ = n) (h : x - n < 1/2) :
    pyRound x = n := by
  simp only [pyRound, hf]
  rw [if_pos h]

theorem pyRound_high {x : ℚ} {n : ℤ} (hf : ⌊x⌋ = n) (h : 1/2 < x - n) :
    pyRound x = n + 1 := by
  simp only [pyRound, hf]
  rw [if_neg (by linarith), if_pos h]

theorem pyRound_bounds {x : ℚ} (h0 : 0 ≤ x) (h1 : x < 60) :
    0 ≤ pyRound x ∧ pyRound x ≤ 60 := by
  have hf0 : 0 ≤ ⌊x⌋ := Int.floor_nonneg.mpr h0
  have hf1 : ⌊x⌋ < 60 := Int.floor_lt.mpr (by exact_mod_cast h1)
  by_cases hA : x - ⌊x⌋ < 1/2
  · simp only [pyRound]; rw [if_pos hA]; omega
  · by_cases hB : 1/2 < x - ⌊x⌋
    · simp only [pyRound]; rw [if_neg hA, if_pos hB]; omega
    · by_cases hC : ⌊x⌋ % 2 = 0
      · simp only [pyRound]; rw [if_neg hA, if_neg hB, if_pos hC]; omega
      · simp only [pyRound]; rw [if_neg hA, if_neg hB, if_neg hC]; omega

theorem dmsD_neg (a : ℚ) : dmsD (-a) = dmsD a := by
  simp only [dmsD, abs_neg]

theorem dmsM_neg (a : ℚ) : dmsM (-a) = dmsM a := by
  simp only [dmsM, abs_neg, dmsD_neg]

theorem dmsS_neg (a : ℚ) : dmsS (-a) = dmsS a := by
  simp only [dmsS, abs_neg, dmsD_neg, dmsM_neg]

theorem getDMS_neg (a : ℚ) (dd : Nat) : getDMS (-a) dd = getDMS a dd := by
  simp only [getDMS, dmsD_neg, dmsM_neg, dmsS_neg]

theorem dmsD_nonneg (a : ℚ) : 0 ≤ dmsD a := by
  simp only [dmsD]
  rw [pyInt_of_nonneg (abs_nonneg a)]
  exact Int.floor_nonneg.mpr (abs_nonneg a)

theorem dmsD_lt {a : ℚ} {n : ℤ} (h : |a| < (n : ℚ)) : dmsD a < n := by
  simp only [dmsD]
  rw [pyInt_of_nonneg (abs_nonneg a)]
  exact Int.floor_lt.mpr h

theorem dmsM_bounds (a : ℚ) : 0 ≤ dmsM a ∧ dmsM a ≤ 59 := by
  have hx0 : (0 : ℚ) ≤ |a| := abs_nonneg a
  have h1 : ((⌊|a|⌋ : ℤ) : ℚ) ≤ |a| := Int.floor_le _
  have h2 : |a| < ⌊|a|⌋ + 1 := Int.lt_floor_add_one _
  have hD : dmsD a = ⌊|a|⌋ := by simp only [dmsD]; exact pyInt_of_nonneg hx0
  have hnn : (0 : ℚ) ≤ (|a| - ⌊|a|⌋) * 60 := mul_nonneg (by linarith) (by norm_num)
  simp only [dmsM]
  rw [hD, pyInt_of_nonneg hnn]
  refine ⟨Int.floor_nonneg.mpr hnn, ?_⟩
  have hlt : (|a| - (⌊|a|⌋ : ℚ)) * 60 < 60 := by linarith
  have := Int.floor_lt.mpr (show (|a| - (⌊|a|⌋ : ℚ)) * 60 < ((60 : ℤ) : ℚ) by exact_mod_cast hlt)
  omega

theorem dmsS_bounds (a : ℚ) : 0 ≤ dmsS a ∧ dmsS a ≤ 60 := by
  have hx0 : (0 : ℚ) ≤ |a| := abs_nonneg a
  have h1 : ((⌊|a|⌋ : ℤ) : ℚ) ≤ |a| := Int.floor_le _
  have hD : dmsD a = ⌊|a|⌋ := by simp only [dmsD]; exact pyInt_of_nonneg hx0
  have hnn : (0 : ℚ) ≤ (|a| - ⌊|a|⌋) * 60 := mul_nonneg (by linarith) (by norm_num)
  have hM : dmsM a = ⌊(|a| - (⌊|a|⌋ : ℚ)) * 60⌋ := by
    simp only [dmsM]
    rw [hD, pyInt_of_nonneg hnn]
  have hm1 : ((⌊(|a| - (⌊|a|⌋ : ℚ)) * 60⌋ : ℤ) : ℚ) ≤ (|a| - (⌊|a|⌋ : ℚ)) * 60 :=
    Int.floor_le _
  have hm2 : (|a| - (⌊|a|⌋ : ℚ)) * 60 < ⌊(|a| - (⌊|a|⌋ : ℚ)) * 60⌋ + 1 :=
    Int.lt_floor_add_one _
  simp only [dmsS]
  rw [hD, hM]
  apply pyRound_bounds
  · apply mul_nonneg _ (by norm_num)
    linarith
  · have hr : |a| - (⌊|a|⌋ : ℚ) - (⌊(|a| - (⌊|a|⌋ : ℚ)) * 60⌋ : ℚ) / 60 < 1 / 60 := by
      linarith
    linarith

theorem getDMS_eval (a : ℚ) (dd : Nat) (d m s : ℤ) (ha : 0 ≤ a)
    (hd : ⌊a⌋ = d) (hm : ⌊(a - (d : ℚ)) * 60⌋ = m)
    (hs : pyRound ((a - (d : ℚ) - (m : ℚ) / 60) * 3600) = s) :
    getDMS a dd = pyFmtD dd d ++ pyFmtD 2 m ++ pyFmtD 2 s := by
  have habs : |a| = a := abs_of_nonneg ha
  have hd_le : (d : ℚ) ≤ a := by rw [← hd]; exact Int.floor_le a
  have hD : dmsD a = d := by
    simp only [dmsD]
    rw [habs, pyInt_of_nonneg ha, hd]
  have hnn : (0 : ℚ) ≤ (a - (d : ℚ)) * 60 := mul_nonneg (by linarith) (by norm_num)
  have hM : dmsM a = m := by
    simp only [dmsM]
    rw [habs, hD, pyInt_of_nonneg hnn, hm]
  have hS : dmsS a = s := by
    simp only [dmsS]
    rw [habs, hD, hM, hs]
  simp only [getDMS]
  rw [hD, hM, hS]

set_option maxRecDepth 8000 in
theorem zeroPad2_len : ∀ k : Nat, k < 100 → (zeroPad 2 (toString k)).length = 2 := by
  decide

set_option maxRecDepth 80000 in
theorem zeroPad3_len : ∀ k : Nat, k < 1000 → (zeroPad 3 (toString k)).length = 3 := by
  decide

theorem pyFmtD_len2 {n : ℤ} (h0 : 0 ≤ n) (h : n ≤ 99) : (pyFmtD 2 n).length = 2 := by
  simp only [pyFmtD]
  rw [if_neg (not_lt.mpr h0)]
  exact zeroPad2_len n.natAbs (by omega)

theorem pyFmtD_len3 {n : ℤ} (h0 : 0 ≤ n) (h : n ≤ 999) : (pyFmtD 3 n).length = 3 := by
  simp only [pyFmtD]
  rw [if_neg (not_lt.mpr h0)]
  exact zeroPad3_len n.natAbs (by omega)

/-- Shared evaluation: the example latitude `51.4775` renders with 28
minutes and 39 (rounded) seconds. -/
theorem getDMS_ex_lat : getDMS (51.4775 : ℚ) 2 = "512839" := by
  have hd : ⌊(51.4775 : ℚ)⌋ = 51 := Int.floor_eq_iff.mpr ⟨by norm_num, by norm_num⟩
  have hm : ⌊((51.4775 : ℚ) - ((51 : ℤ) : ℚ)) * 60⌋ = 28 :=
    Int.floor_eq_iff.mpr ⟨by norm_num, by norm_num⟩
  have hs : pyRound (((51.4775 : ℚ) - ((51 : ℤ) : ℚ) - ((28 : ℤ) : ℚ) / 60) * 3600) = 39 := by
    apply pyRound_low (n := 39)
    · exact Int.floor_eq_iff.mpr ⟨by norm_num, by norm_num⟩
    · norm_num
  rw [getDMS_eval _ 2 51 28 39 (by norm_num) hd hm hs]
  decide

/-- Shared evaluation: the example longitude `-0.4614` renders with 27
minutes and 41 (rounded) seconds. -/
theorem getDMS_ex_lon : getDMS (-0.4614 : ℚ) 3 = "0002741" := by
  rw [getDMS_neg]
  have hd : ⌊(0.4614 : ℚ)⌋ = 0 := Int.floor_eq_iff.mpr ⟨by norm_num, by norm_num⟩
  have hm : ⌊((0.4614 : ℚ) - ((0 : ℤ) : ℚ)) * 60⌋ = 27 :=
    Int.floor_eq_iff.mpr ⟨by norm_num, by norm_num⟩
  have hs : pyRound (((0.4614 : ℚ) - ((0 : ℤ) : ℚ) - ((27 : ℤ) : ℚ) / 60) * 3600) = 41 := by
    apply pyRound_low (n := 41)
    · exact Int.floor_eq_iff.mpr ⟨by norm_num, by norm_num⟩
    · norm_num
  rw [getDMS_eval _ 3 0 27 41 (by norm_num) hd hm hs]
  decide

/-! ## C9: position rendering -/

/-- C9 (counterexample): latitude `51.4775` does not render as `511439N` —
51.4775° is 51°28'39", so the code renders `512839N`. -/
theorem c9_counterexample : getDMS (51.4775 : ℚ) 2 ++ "N" ≠ "511439N" := by
  rw [getDMS_ex_lat]
  decide

/-- C9 (amended): for every in-range latitude and longitude the rendered
DMS string is fixed-width — exactly 2 zero-padded degree digits for
latitude (total 6 characters) and 3 for longitude (total 7), seconds
rounded to the nearest integer rather than truncated, hemisphere from the
sign; latitude `51.4775` renders `512839N` (not the claimed `511439N`) and
longitude `-0.4614` renders `0002741W`; an angle of 10°20'30.6" rounds its
seconds up to 31. -/
theorem c9_amended :
    (∀ lat : ℚ, |lat| < 100 → (getDMS lat 2).length = 6)
      ∧ (∀ lon : ℚ, |lon| < 1000 → (getDMS lon 3).length = 7)
      ∧ handlePos 51.4775 (-0.4614) = "512839N 0002741W"
      ∧ getDMS (10 + 1/3 + 17/2000 : ℚ) 2 = "102031" := by
  refine ⟨?_, ?_, ?_, ?_⟩
  · intro lat h
    have hd0 := dmsD_nonneg lat
    have hd1 : dmsD lat < 100 := dmsD_lt (by exact_mod_cast h)
    have hm := dmsM_bounds lat
    have hs := dmsS_bounds lat
    simp only [getDMS]
    rw [String.length_append, String.length_append,
      pyFmtD_len2 hd0 (by omega), pyFmtD_len2 hm.1 (by omega),
      pyFmtD_len2 hs.1 (by omega)]
  · intro lon h
    have hd0 := dmsD_nonneg lon
    have hd1 : dmsD lon < 1000 := dmsD_lt (by exact_mod_cast h)
    have hm := dmsM_bounds lon
    have hs := dmsS_bounds lon
    simp only [getDMS]
    rw [String.length_append, String.length_append,
      pyFmtD_len3 hd0 (by omega), pyFmtD_len2 hm.1 (by omega),
      pyFmtD_len2 hs.1 (by omega)]
  · simp only [handlePos]
    rw [if_neg (by norm_num : ¬((51.4775 : ℚ) < 0)),
      if_pos (by norm_num : (-0.4614 : ℚ) < 0), getDMS_ex_lat, getDMS_ex_lon]
    decide
  · have hd : ⌊(10 + 1/3 + 17/2000 : ℚ)⌋ = 10 :=
      Int.floor_eq_iff.mpr ⟨by norm_num, by norm_num⟩
    have hm : ⌊((10 + 1/3 + 17/2000 : ℚ) - ((10 : ℤ) : ℚ)) * 60⌋ = 20 :=
      Int.floor_eq_iff.mpr ⟨by norm_num, by norm_num⟩
    have hs : pyRound (((10 + 1/3 + 17/2000 : ℚ) - ((10 : ℤ) : ℚ) - ((20 : ℤ) : ℚ) / 60) * 3600)
        = 31 := by
      have h31 : (30 : ℤ) + 1 = 31 := rfl
      rw [pyRound_high (n := 30) (Int.floor_eq_iff.mpr ⟨by norm_num, by norm_num⟩)
        (by norm_num), h31]
    rw [getDMS_eval _ 2 10 20 31 (by norm_num) hd hm hs]
    decide

/-- Witness for C9 at the in-range coordinate 0. -/
theorem c9_amended_witness :
    (getDMS (0 : ℚ) 2).length = 6 ∧ (getDMS (0 : ℚ) 3).length = 7 :=
  ⟨c9_amended.1 0 (by norm_num), c9_amended.2.1 0 (by norm_num)⟩

/-! ## C10: seconds rounding up to 60 -/

/-- C10 (confirmed): seconds rounding never carries into the minutes field —
`50.999999` (just below 51°) renders as `505960`: minutes stay 59 while the
seconds field shows 60. -/
theorem c10_seconds_sixty : getDMS (50.999999 : ℚ) 2 = "505960" := by
  have hd : ⌊(50.999999 : ℚ)⌋ = 50 := Int.floor_eq_iff.mpr ⟨by norm_num, by norm_num⟩
  have hm : ⌊((50.999999 : ℚ) - ((50 : ℤ) : ℚ)) * 60⌋ = 59 :=
    Int.floor_eq_iff.mpr ⟨by norm_num, by norm_num⟩
  have hs : pyRound (((50.999999 : ℚ) - ((50 : ℤ) : ℚ) - ((59 : ℤ) : ℚ) / 60) * 3600) = 60 := by
    have h60 : (59 : ℤ) + 1 = 60 := rfl
    rw [pyRound_high (n := 59) (Int.floor_eq_iff.mpr ⟨by norm_num, by norm_num⟩)
      (by norm_num), h60]
  rw [getDMS_eval _ 2 50 59 60 (by norm_num) hd hm hs]
  decide

/-! ## C1: abort on unrecognised curve-segment tags -/

theorem dispatch_err (fmt : Gfmt → ℚ → String) {seg : Segment}
    (h : recognizedTag seg.tag = false) :
    dispatchSegment fmt seg = .error ("Unhandled tag: " ++ seg.tag) := by
  simp only [recognizedTag, Bool.or_eq_false_iff] at h
  obtain ⟨⟨⟨h1, h2⟩, h3⟩, h4⟩ := h
  simp [dispatchSegment, h1, h2, h3, h4]

theorem dispatch_ok (fmt : Gfmt → ℚ → String) {seg : Segment}
    (h : recognizedTag seg.tag = true) :
    ∃ out, dispatchSegment fmt seg = .ok out := by
  simp only [dispatchSegment]
  split_ifs with h1 h2 h3 h4
  · exact ⟨_, rfl⟩
  · exact ⟨_, rfl⟩
  · exact ⟨_, rfl⟩
  · exact ⟨_, rfl⟩
  · exfalso
    simp only [recognizedTag] at h
    simp only [h1, h2, h3, h4] at h
    simp at h

theorem processSegs_err (fmt : Gfmt → ℚ → String) :
    ∀ {segs : List Segment},
      (∃ seg ∈ segs, recognizedTag seg.tag = false) →
      ∃ e, processSegs fmt segs = .error e := by
  intro segs h
  induction segs with
  | nil =>
    obtain ⟨w, hw, _⟩ := h
    exact absurd hw (List.not_mem_nil w)
  | cons s rest ih =>
    obtain ⟨w, hw, hbad⟩ := h
    by_cases hr : recognizedTag s.tag = false
    · exact ⟨"Unhandled tag: " ++ s.tag,
        by simp [processSegs, dispatch_err fmt hr]⟩
    · have hr' : recognizedTag s.tag = true := by simpa using hr
      have hw' : w ∈ rest := by
        rcases List.mem_cons.mp hw with rfl | h2
        · exact absurd hbad (by simp [hr'])
        · exact h2
      obtain ⟨out, hout⟩ := dispatch_ok fmt hr'
      obtain ⟨e, he⟩ := ih ⟨w, hw', hbad⟩
      exact ⟨e, by simp [processSegs, hout, he]⟩

theorem processRing_err (fmt : Gfmt → ℚ → String) :
    ∀ {ring : List (Option (List Segment))},
      (∃ cm ∈ ring, ∃ segs, cm = some segs ∧ ∃ seg ∈ segs, recognizedTag seg.tag = false) →
      ∃ e, processRing fmt ring = .error e := by
  intro ring h
  induction ring with
  | nil =>
    obtain ⟨w, hw, _⟩ := h
    exact absurd hw (List.not_mem_nil w)
  | cons cm rest ih =>
    obtain ⟨w, hw, segs, hwsome, hbad⟩ := h
    rcases List.mem_cons.mp hw with rfl | hwrest
    · subst hwsome
      obtain ⟨e, he⟩ := processSegs_err fmt hbad
      refine ⟨e, ?_⟩
      simp [processRing, he]
    · cases cm with
      | none =>
        obtain ⟨e, he⟩ := ih ⟨w, hwrest, segs, hwsome, hbad⟩
        exact ⟨e, by simp [processRing, he]⟩
      | some s0 =>
        cases hps : processSegs fmt s0 with
        | error e => exact ⟨e, by simp [processRing, hps]⟩
        | ok s1 =>
          obtain ⟨e, he⟩ := ih ⟨w, hwrest, segs, hwsome, hbad⟩
          exact ⟨e, by simp [processRing, hps, he]⟩

theorem processTimeSlice_err (fmt : Gfmt → ℚ → String) {ts : TimeSlice}
    (hRU : strStartsWith (desLstrip ts.designator) "RU" = false)
    (h : ∃ cm ∈ ts.ring, ∃ segs, cm = some segs ∧ ∃ seg ∈ segs, recognizedTag seg.tag = false) :
    ∃ e, processTimeSlice fmt ts = .error e := by
  simp only [processTimeSlice]
  rw [if_neg (by simp [hRU])]
  cases hL : renderLower ts.lowerLimit ts.lowerUom ts.lowerRef with
  | error e => exact ⟨e, by simp⟩
  | ok lower =>
    cases hU : renderUpper ts.upperLimit ts.upperUom with
    | error e => exact ⟨e, by simp⟩
    | ok upper =>
      obtain ⟨e, he⟩ := processRing_err fmt h
      exact ⟨e, by simp [he]⟩

theorem processMembers_err {fmt : Gfmt → ℚ → String} :
    ∀ {doc : List Member},
      (∃ m ∈ doc, ∃ e, processMember fmt m = .error e) →
      ∃ e, processMembers fmt doc = .error e := by
  intro doc h
  induction doc with
  | nil =>
    obtain ⟨w, hw, _⟩ := h
    exact absurd hw (List.not_mem_nil w)
  | cons m0 rest ih =>
    obtain ⟨w, hw, e0, he0⟩ := h
    rcases List.mem_cons.mp hw with rfl | hwrest
    · exact ⟨e0, by simp [processMembers, he0]⟩
    · cases hm : processMember fmt m0 with
      | error e => exact ⟨e, by simp [processMembers, hm]⟩
      | ok o =>
        obtain ⟨e, he⟩ := ih ⟨w, hwrest, e0, he0⟩
        cases o with
        | none => exact ⟨e, by simp [processMembers, hm, he]⟩
        | some s => exact ⟨e, by simp [processMembers, hm, he]⟩

/-- C1 (amended): whenever a membership record that is actually processed —
its Airspace and time-slice are present and its designator survives the RU
filter — contains a curve-segment element whose tag matches none of the four
recognised variants, the whole run aborts with an error before the output
file is opened (the result carries no output path or content).  The original
claim fails when the offending segment sits only inside skipped or dropped
records; see the counterexample. -/
theorem c1_amended (fmt : Gfmt → ℚ → String) (doc : List Member) (filename : String)
    (m : Member) (ts : TimeSlice) (hm : m ∈ doc) (ha : m.airspace = some (some ts))
    (hRU : strStartsWith (desLstrip ts.designator) "RU" = false)
    (hbad : ∃ cm ∈ ts.ring, ∃ segs, cm = some segs
      ∧ ∃ seg ∈ segs, recognizedTag seg.tag = false) :
    ∃ e, mainRun fmt doc filename = .error e := by
  have hts := processTimeSlice_err fmt hRU hbad
  have hpm : ∃ e, processMember fmt m = .error e := by
    simpa only [processMember, ha] using hts
  obtain ⟨e, he⟩ := processMembers_err ⟨m, hm, hpm⟩
  exact ⟨e, by simp [mainRun, he]⟩

/-- A curve-segment element with a tag outside the four recognised
variants. -/
def c1BadSeg : Segment := ⟨"{gml}Spiral", [], (0, 0), "", 0, ""⟩

/-- A time-slice whose designator the RU filter drops, but whose boundary
contains the unrecognised segment. -/
def c1RuTS : TimeSlice :=
  ⟨"D", "EG RU99", "NAME", none, "0", "FT", "SFC", "0", "FT", "SFC", [some [c1BadSeg]]⟩

/-- C1 (counterexample): a document containing an unrecognised curve-segment
tag inside a record that the RU filter drops completes successfully — the
output file is opened and written, so the claim's "for every input document"
is too strong. -/
theorem c1_counterexample :
    recognizedTag c1BadSeg.tag = false
      ∧ mainRun stdFmt [⟨some (some c1RuTS)⟩] "zones.xml"
          = .ok ("zones.yaml", preambleFor "zones.xml") :=
  ⟨by decide, rfl⟩

/-- A processed (not skipped, not dropped) time-slice containing the
unrecognised segment. -/
def c1WitTS : TimeSlice :=
  ⟨"D", "EG D123", "TEST", none, "1000", "FT", "MSL", "0", "FT", "SFC", [some [c1BadSeg]]⟩

/-- Witness for C1 (amended): on a document whose only record is processed
and carries the unrecognised tag, the run ends in an error. -/
theorem c1_amended_witness :
    ∃ e, mainRun stdFmt [⟨some (some c1WitTS)⟩] "zones.xml" = .error e :=
  c1_amended stdFmt [⟨some (some c1WitTS)⟩] "zones.xml"
    ⟨some (some c1WitTS)⟩ c1WitTS
    (List.mem_singleton.mpr rfl) rfl (by decide)
    ⟨some [c1BadSeg], List.mem_singleton.mpr rfl, [c1BadSeg], rfl,
      c1BadSeg, List.mem_singleton.mpr rfl, by decide⟩

end NatsRestrictionZones
